import Mathlib

/-!
Verification of the chissor dictionary registry, batch pipeline, and
notification center against `src/main.rs`.

The Rust source is shallowly embedded: structs become Lean structures,
in-place mutation becomes state passing (an operation returns the new
state together with its `Result`), and panics (`assert!`/`expect`) are
modelled with `Option` where a claim depends on them. The external
segmentation engine (`jieba_rs`) is opaque to the core; its state is
modelled as the record of vocabulary it was built from and the words
added to it, and its text operations are abstract function parameters.
Batch file I/O is modelled over an association-list file system.
-/

namespace Chissor

/-- One parsed vocabulary entry: `word [frequency] [tag]`. -/
structure DictEntry where
  word : String
  freq : Option Nat
  tag : Option String
  deriving DecidableEq

/-- State of one `jieba_rs` engine instance, as visible to the core:
the vocabulary it was constructed from plus the ad-hoc words added via
`add_word` (most recent first). -/
structure Jieba where
  vocab : List DictEntry
  added : List DictEntry
  deriving DecidableEq

/-- `Jieba::add_word(word, freq, tag)`: records the word in the engine. -/
def Jieba.add_word (j : Jieba) (word : String) (freq : Option Nat) (tag : Option String) :
    Jieba :=
  { j with added := ⟨word, freq, tag⟩ :: j.added }

inductive Embedded
  | normal
  | small
  | big
  deriving DecidableEq

inductive DictName
  | embedded (kind : Embedded)
  | file (name : String)
  deriving DecidableEq

/-- `struct Dict { name: DictName, jieba: jieba::Jieba }`. -/
structure Dict where
  name : DictName
  jieba : Jieba
  deriving DecidableEq

/-- `struct Dicts { idx: usize, dicts: Vec<Dict> }`.
Invariants stated in the source: `idx` must be in `0..dicts.len()`,
and `dicts` must be nonempty. -/
structure Dicts where
  idx : Nat
  dicts : List Dict
  deriving DecidableEq

/-- `Dicts::can_remove_dict`: `self.dicts.len() != 1`. -/
def Dicts.can_remove_dict (d : Dicts) : Bool :=
  d.dicts.length != 1

/-- `Dicts::remove_dict`: `self.dicts.remove(self.idx)`, then if `self.idx`
equals the new length, decrement it. (The source `assert!`s
`can_remove_dict` first; the theorems carry that as a hypothesis.) -/
def Dicts.remove_dict (d : Dicts) : Dicts :=
  let dicts := d.dicts.eraseIdx d.idx
  { d with
    dicts := dicts
    idx := if d.idx = dicts.length then d.idx - 1 else d.idx }

/-- Value of a nonempty string of ASCII digits; `none` if the list is
empty or contains a non-digit. -/
def digitsVal (cs : List Char) : Option Nat :=
  if cs.isEmpty then none
  else cs.foldl
    (fun acc c => acc.bind fun n => if c.isDigit then some (10 * n + (c.toNat - 48)) else none)
    (some 0)

/-- `str::parse::<usize>()` on a 64-bit target: an optional leading `+`
followed by one or more ASCII digits, value below `2 ^ 64`
(checked-arithmetic overflow during accumulation is equivalent to a
final bound check because partial values never exceed the total). -/
def parseUsize (s : String) : Option Nat :=
  let cs :=
    match s.data with
    | '+' :: rest => rest
    | cs => cs
  (digitsVal cs).bind fun n => if n < 2 ^ 64 then some n else none

/-- The error for a frequency field that fails `str::parse` (the source
boxes the `ParseIntError`; the spec names it `ParseError::InvalidFrequency`). -/
inductive ParseError
  | invalidFrequency
  deriving DecidableEq

/-- `Dicts::add_word(word, freq, tag)`: empty `freq` means no explicit
frequency, otherwise it must parse as a `usize` (`?` propagates the
parse error before any engine access); empty `tag` means no tag.
`none` models the `expect` panic in `selected_mut` when the index
invariant is broken; it is unreachable under I2. -/
def Dicts.add_word (d : Dicts) (word freq tag : String) :
    Option (Dicts × Except ParseError Unit) :=
  let pfreq : Except ParseError (Option Nat) :=
    if freq.isEmpty then .ok none
    else
      match parseUsize freq with
      | some n => .ok (some n)
      | none => .error .invalidFrequency
  match pfreq with
  | .error e => some (d, .error e)
  | .ok f =>
    let t := if tag.isEmpty then none else some tag
    match d.dicts[d.idx]? with
    | none => none
    | some dict =>
      some ({ d with dicts := d.dicts.set d.idx { dict with jieba := dict.jieba.add_word word f t } },
        .ok ())

/-- The error for malformed vocabulary data (the source boxes the
`jieba_rs` error; the spec names it `LoadError`). -/
inductive LoadError
  | malformed
  deriving DecidableEq

/-- Space-separated fields of a line, empty fields dropped: the
accumulator collects the current field's characters in reverse. -/
def fieldsAux : List Char → List Char → List String
  | [], acc => if acc.isEmpty then [] else [String.mk acc.reverse]
  | c :: cs, acc =>
    if c == ' ' then
      if acc.isEmpty then fieldsAux cs []
      else String.mk acc.reverse :: fieldsAux cs []
    else fieldsAux cs (c :: acc)

/-- The space-separated fields of a line. -/
def fields (line : String) : List String :=
  fieldsAux line.data []

/-- Modelled from the spec: the external engine's line format (§6),
`word [frequency] [tag]` space-separated, frequency a non-negative
integer; blank lines are skipped; a wrong field count or a non-numeric
frequency makes the whole load fail. -/
def parseDictLine (line : String) : Except LoadError (Option DictEntry) :=
  match fields line with
  | [] => .ok none
  | [w] => .ok (some ⟨w, none, none⟩)
  | [w, f] =>
    match parseUsize f with
    | some n => .ok (some ⟨w, some n, none⟩)
    | none => .error .malformed
  | [w, f, tg] =>
    match parseUsize f with
    | some n => .ok (some ⟨w, some n, some tg⟩)
    | none => .error .malformed
  | _ => .error .malformed

/-- Modelled from the spec: parse every line, failing on the first
malformed one — no partial ingestion (§6). -/
def collectLines : List String → Except LoadError (List DictEntry)
  | [] => .ok []
  | l :: rest =>
    match parseDictLine l with
    | .error e => .error e
    | .ok none => collectLines rest
    | .ok (some en) => (collectLines rest).map (en :: ·)

/-- Modelled from the spec: `jieba::Jieba::with_dict`, the external
engine constructor — succeeds with an engine holding exactly the parsed
vocabulary, or fails with a `LoadError` on malformed data (§4.2, §6). -/
def withDict (src : List String) : Except LoadError Jieba :=
  (collectLines src).map fun es => ⟨es, []⟩

/-- `Dicts::new_dict(name, dict)`: build an engine from the source
(`?` propagates the load error), then push a new `Dict` with
`DictName::File(name)` onto the end of `dicts`. -/
def Dicts.new_dict (d : Dicts) (name : String) (src : List String) :
    Dicts × Except LoadError Unit :=
  match withDict src with
  | .error e => (d, .error e)
  | .ok j => ({ d with dicts := d.dicts ++ [⟨DictName.file name, j⟩] }, .ok ())

/-- One record in the notification center; `isOpen` models the `open`
flag (a Lean keyword), flipped by the presentation layer. -/
structure ErrorWindow where
  id : Nat
  isOpen : Bool
  what : String
  content : String
  deriving DecidableEq

/-- `struct ErrorWindows { count: u32, windows: Vec<ErrorWindow> }`. -/
structure ErrorWindows where
  count : Nat
  windows : List ErrorWindow
  deriving DecidableEq

/-- `ErrorWindows::default()`. -/
def ErrorWindows.empty : ErrorWindows :=
  ⟨0, []⟩

/-- `ErrorWindows::add`: push a fresh record with `id = count` and
`open = true`, then increment the `u32` counter (wrapping). -/
def ErrorWindows.add (ew : ErrorWindows) (what content : String) : ErrorWindows :=
  { count := (ew.count + 1) % 2 ^ 32
    windows := ew.windows ++ [⟨ew.count, true, what, content⟩] }

/-- `ErrorWindows::cleanup`: `self.windows.retain(|w| w.open)`. -/
def ErrorWindows.cleanup (ew : ErrorWindows) : ErrorWindows :=
  { ew with windows := ew.windows.filter (fun w => w.isOpen) }

/-- The presentation layer closing every record: each window's `open`
flag set to false, as in the dismissal test. -/
def ErrorWindows.closeAll (ew : ErrorWindows) : ErrorWindows :=
  { ew with windows := ew.windows.map (fun w => { w with isOpen := false }) }

/-- Fallback used to express `Dicts::selected`'s `expect` totally; under
invariants I1 and I2 the lookup never falls back to it. -/
def defaultDict : Dict :=
  ⟨DictName.file "", ⟨[], []⟩⟩

/-- `Dicts::selected`: the engine of the entry at `idx`. -/
def Dicts.selected (d : Dicts) : Jieba :=
  (d.dicts.getD d.idx defaultDict).jieba

/-- The external engine's text operations (spec §4.2): abstract
functions of the engine state, the input text, and the HMM flag. The
algorithms themselves are an explicit non-goal of the spec. -/
structure Engine where
  cut : Jieba → String → Bool → List String
  cutForSearch : Jieba → String → Bool → List String
  cutAll : Jieba → String → List String
  tagItems : Jieba → String → Bool → List (String × String)

inductive Locale
  | en
  | zhCn
  | zhHk
  deriving DecidableEq

/-- The `App` state, mirroring `struct App` field for field. -/
structure App where
  locale : Locale
  dicts : Dicts
  word : String
  freq : String
  tag : String
  input : String
  output : String
  separator : String
  use_hmm : Bool
  batch_mode : Bool
  error_windows : ErrorWindows

/-- `App::get_separator`: `"\n"` when the separator is empty, else the
separator itself. -/
def App.get_separator (a : App) : String :=
  if a.separator.isEmpty then "\n" else a.separator

/-- `App::can_add_word`: `!self.word.is_empty()`, the UI guard for the
add-word button. -/
def App.can_add_word (a : App) : Bool :=
  !a.word.isEmpty

/-- `App::segment_one`: cut the input with the selected engine and join
with the separator. -/
def App.segment_one (eng : Engine) (a : App) (input : String) : String :=
  String.intercalate a.get_separator (eng.cut a.dicts.selected input a.use_hmm)

/-- `App::segment_granular_one`. -/
def App.segment_granular_one (eng : Engine) (a : App) (input : String) : String :=
  String.intercalate a.get_separator (eng.cutForSearch a.dicts.selected input a.use_hmm)

/-- `App::search_one`. -/
def App.search_one (eng : Engine) (a : App) (input : String) : String :=
  String.intercalate a.get_separator (eng.cutAll a.dicts.selected input)

/-- `App::tag_one`: each item rendered as `"{word} {tag}"`. -/
def App.tag_one (eng : Engine) (a : App) (input : String) : String :=
  String.intercalate a.get_separator
    ((eng.tagItems a.dicts.selected input a.use_hmm).map fun p => p.1 ++ " " ++ p.2)

/-- `App::segment` (interactive): store the result in the output buffer. -/
def App.segment (eng : Engine) (a : App) : App :=
  { a with output := App.segment_one eng a a.input }

/-- `App::segment_granular` (interactive). -/
def App.segment_granular (eng : Engine) (a : App) : App :=
  { a with output := App.segment_granular_one eng a a.input }

/-- `App::search` (interactive). -/
def App.search (eng : Engine) (a : App) : App :=
  { a with output := App.search_one eng a a.input }

/-- `App::tag` (interactive); named `tag_run` here because `tag` is the
pending-tag field. -/
def App.tag_run (eng : Engine) (a : App) : App :=
  { a with output := App.tag_one eng a a.input }

/-- One picked input file: its full path and its base file name
(`file_name()`, guaranteed present for a picked regular file). -/
structure InFile where
  path : String
  base : String
  deriving DecidableEq

/-- The file system as a path-to-content association list; the most
recent entry for a path shadows older ones. -/
structure FS where
  files : List (String × String)
  deriving DecidableEq

/-- `fs::read_to_string`: `none` models a read failure (missing file,
non-UTF-8 data, …). -/
def FS.read (fs : FS) (p : String) : Option String :=
  (fs.files.find? (fun q => q.1 == p)).map (·.2)

/-- Whether a file exists at `p` (what `File::create_new` checks). -/
def FS.existsFile (fs : FS) (p : String) : Bool :=
  (fs.files.find? (fun q => q.1 == p)).isSome

/-- Creating a file at `p` with content `c`. -/
def FS.create (fs : FS) (p c : String) : FS :=
  ⟨(p, c) :: fs.files⟩

inductive IoError
  | readFailed
  | alreadyExists
  deriving DecidableEq

instance {ε α : Type} [DecidableEq ε] [DecidableEq α] : DecidableEq (Except ε α)
  | .ok a, .ok b =>
    if h : a = b then isTrue (by rw [h]) else isFalse (fun hh => h (Except.ok.inj hh))
  | .ok _, .error _ => isFalse (fun hh => Except.noConfusion hh)
  | .error _, .ok _ => isFalse (fun hh => Except.noConfusion hh)
  | .error e, .error f =>
    if h : e = f then isTrue (by rw [h]) else isFalse (fun hh => h (Except.error.inj hh))

/-- `save_path.join(file_name)`. -/
def outPath (dir : String) (inf : InFile) : String :=
  dir ++ "/" ++ inf.base

/-- The Unicode `White_Space` property, as used by `str::trim`. -/
def rustWhitespace (c : Char) : Bool :=
  c.toNat == 0x20 || c.toNat == 0x09 || c.toNat == 0x0A || c.toNat == 0x0B ||
  c.toNat == 0x0C || c.toNat == 0x0D || c.toNat == 0x85 || c.toNat == 0xA0 ||
  c.toNat == 0x1680 ||
  (decide (0x2000 ≤ c.toNat) && decide (c.toNat ≤ 0x200A)) ||
  c.toNat == 0x2028 || c.toNat == 0x2029 || c.toNat == 0x202F ||
  c.toNat == 0x205F || c.toNat == 0x3000

/-- `str::trim`: strip leading and trailing whitespace. -/
def rustTrim (s : String) : String :=
  String.mk (((s.data.dropWhile rustWhitespace).reverse.dropWhile rustWhitespace).reverse)

/-- `with_out_files` after both dialogs returned selections: for each
input in order, read it as text, trim, check the target does not
already exist (`File::create_new`), and write `func(input)` plus a
newline (`writeln!`); stop at the first failure. -/
def with_out_files (func : String → String) (dir : String) :
    List InFile → FS → FS × Except IoError Unit
  | [], fs => (fs, .ok ())
  | inf :: rest, fs =>
    match fs.read inf.path with
    | none => (fs, .error .readFailed)
    | some content =>
      let input := rustTrim content
      if fs.existsFile (outPath dir inf) then (fs, .error .alreadyExists)
      else with_out_files func dir rest (fs.create (outPath dir inf) (func input ++ "\n"))

/-- The output file one input produces when read from `fs`. -/
def batchOutput (func : String → String) (dir : String) (fs : FS) (inf : InFile) :
    String × String :=
  (outPath dir inf, func (rustTrim ((fs.read inf.path).getD "")) ++ "\n")

/-- Whether the batch step for `inf` fails from state `fs`: the read
fails or the output file already exists. -/
def failsAt (dir : String) (fs : FS) (inf : InFile) : Bool :=
  !(fs.read inf.path).isSome || fs.existsFile (outPath dir inf)

/-! ## Theorems -/

/-- C4: For every registry state with a non-empty entry list,
`canRemoveSelected()` returns true if and only if `entries.len() > 1`. -/
theorem can_remove_dict_iff (d : Dicts) (h : d.dicts ≠ []) :
    d.can_remove_dict = true ↔ 1 < d.dicts.length := by
  have hpos : 0 < d.dicts.length := List.length_pos.mpr h
  simp only [Dicts.can_remove_dict, bne_iff_ne, ne_eq]
  omega

/-- Witness for `can_remove_dict_iff` at a concrete two-entry registry. -/
theorem can_remove_dict_iff_witness :
    (Dicts.mk 0 [⟨.file "a", ⟨[], []⟩⟩, ⟨.file "b", ⟨[], []⟩⟩]).can_remove_dict = true ↔
      1 < (Dicts.mk 0 [⟨.file "a", ⟨[], []⟩⟩, ⟨.file "b", ⟨[], []⟩⟩]).dicts.length :=
  can_remove_dict_iff _ (by decide)

/-- C1: starting from a registry satisfying I1 and I2 with more than one
entry, `removeSelected()` removes exactly the entry at `selected`
(the result list is the original with position `selected` deleted);
the new `selected` is decremented exactly when it equals the new number
of entries; and I1 and I2 hold again afterwards. -/
theorem remove_dict_spec (d : Dicts) (h1 : d.dicts ≠ [])
    (h2 : d.idx < d.dicts.length) (hgt : 1 < d.dicts.length) :
    d.remove_dict.dicts = d.dicts.take d.idx ++ d.dicts.drop (d.idx + 1) ∧
    d.remove_dict.idx =
      (if d.idx = d.dicts.length - 1 then d.idx - 1 else d.idx) ∧
    d.remove_dict.dicts ≠ [] ∧
    d.remove_dict.idx < d.remove_dict.dicts.length := by
  have hlen : (d.dicts.eraseIdx d.idx).length = d.dicts.length - 1 := by
    rw [List.length_eraseIdx]
    simp [h2]
  refine ⟨?_, ?_, ?_, ?_⟩
  · simpa [Dicts.remove_dict] using List.eraseIdx_eq_take_drop_succ d.dicts d.idx
  · simp only [Dicts.remove_dict, hlen]
  · simp only [Dicts.remove_dict, ← List.length_pos, hlen]
    omega
  · simp only [Dicts.remove_dict, hlen]
    split <;> omega

/-- Witness for `remove_dict_spec`: a three-entry registry with the last
entry selected. -/
theorem remove_dict_spec_witness :
    (Dicts.mk 2 [⟨.file "a", ⟨[], []⟩⟩, ⟨.file "b", ⟨[], []⟩⟩,
      ⟨.file "c", ⟨[], []⟩⟩]).remove_dict.dicts =
        (Dicts.mk 2 [⟨.file "a", ⟨[], []⟩⟩, ⟨.file "b", ⟨[], []⟩⟩,
          ⟨.file "c", ⟨[], []⟩⟩]).dicts.take 2 ++
        (Dicts.mk 2 [⟨.file "a", ⟨[], []⟩⟩, ⟨.file "b", ⟨[], []⟩⟩,
          ⟨.file "c", ⟨[], []⟩⟩]).dicts.drop 3 ∧
    (Dicts.mk 2 [⟨.file "a", ⟨[], []⟩⟩, ⟨.file "b", ⟨[], []⟩⟩,
      ⟨.file "c", ⟨[], []⟩⟩]).remove_dict.idx =
      (if 2 = (Dicts.mk 2 [⟨.file "a", ⟨[], []⟩⟩, ⟨.file "b", ⟨[], []⟩⟩,
        ⟨.file "c", ⟨[], []⟩⟩]).dicts.length - 1 then 2 - 1 else 2) ∧
    (Dicts.mk 2 [⟨.file "a", ⟨[], []⟩⟩, ⟨.file "b", ⟨[], []⟩⟩,
      ⟨.file "c", ⟨[], []⟩⟩]).remove_dict.dicts ≠ [] ∧
    (Dicts.mk 2 [⟨.file "a", ⟨[], []⟩⟩, ⟨.file "b", ⟨[], []⟩⟩,
      ⟨.file "c", ⟨[], []⟩⟩]).remove_dict.idx <
      (Dicts.mk 2 [⟨.file "a", ⟨[], []⟩⟩, ⟨.file "b", ⟨[], []⟩⟩,
        ⟨.file "c", ⟨[], []⟩⟩]).remove_dict.dicts.length :=
  remove_dict_spec _ (by decide) (by decide) (by decide)

/-- Evaluation of `Dicts::add_word` when the frequency text is non-empty
and fails to parse: the parse error propagates before any engine access. -/
theorem add_word_eval_noparse (d : Dicts) (w f t : String) (hf : f ≠ "")
    (hp : parseUsize f = none) :
    d.add_word w f t = some (d, .error .invalidFrequency) := by
  have he : f.isEmpty = false := by
    rw [← Bool.not_eq_true]
    exact fun h => hf ((String.isEmpty_iff f).mp h)
  simp [Dicts.add_word, he, hp]

/-- Evaluation of `Dicts::add_word` when the frequency text is accepted:
the word is inserted into the selected engine. -/
theorem add_word_eval_ok (d : Dicts) (w f t : String)
    (hidx : d.idx < d.dicts.length)
    (hpf : f = "" ∨ (parseUsize f).isSome = true) :
    d.add_word w f t =
      some
        ({ d with
            dicts := d.dicts.set d.idx
              { d.dicts[d.idx] with
                  jieba :=
                    d.dicts[d.idx].jieba.add_word w
                      (if f.isEmpty then none else parseUsize f)
                      (if t.isEmpty then none else some t) } },
          Except.ok ()) := by
  have hget : d.dicts[d.idx]? = some d.dicts[d.idx] := List.getElem?_eq_getElem hidx
  rcases hpf with hf | hf
  · have he : f.isEmpty = true := (String.isEmpty_iff f).mpr hf
    simp [Dicts.add_word, he, hget]
  · obtain ⟨n, hn⟩ := Option.isSome_iff_exists.mp hf
    by_cases hf0 : f = ""
    · have he : f.isEmpty = true := (String.isEmpty_iff f).mpr hf0
      simp [Dicts.add_word, he, hget]
    · have he : f.isEmpty = false := by
        rw [← Bool.not_eq_true]
        exact fun h => hf0 ((String.isEmpty_iff f).mp h)
      simp [Dicts.add_word, he, hn, hget]

/-- C5: given I2 and a non-empty word, `addWord(word, freqText, tagText)`
succeeds iff `freqText` is empty or parses as a non-negative integer;
on a failed parse the whole registry (hence the selected engine) is
returned unchanged with `ParseError::InvalidFrequency`; and with empty
`freqText` and `tagText` it always succeeds. -/
theorem add_word_spec (d : Dicts) (w f t : String)
    (hidx : d.idx < d.dicts.length) (hw : w ≠ "") :
    ((∃ d', d.add_word w f t = some (d', .ok ())) ↔
      (f = "" ∨ (parseUsize f).isSome = true)) ∧
    (f ≠ "" → parseUsize f = none →
      d.add_word w f t = some (d, .error .invalidFrequency)) ∧
    (∃ d', d.add_word w "" "" = some (d', .ok ())) := by
  refine ⟨⟨?_, fun h => ⟨_, add_word_eval_ok d w f t hidx h⟩⟩,
    fun hf hp => add_word_eval_noparse d w f t hf hp,
    ⟨_, add_word_eval_ok d w "" "" hidx (Or.inl rfl)⟩⟩
  rintro ⟨d', hd'⟩
  by_cases hf : f = ""
  · exact Or.inl hf
  · cases hp : parseUsize f with
    | none =>
      rw [add_word_eval_noparse d w f t hf hp] at hd'
      simp at hd'
    | some n => exact Or.inr (by simp [hp])

/-- Witness for `add_word_spec` at a one-entry registry: a numeric
frequency succeeds, and the witness also exercises the parse-failure
conjunct at a non-numeric frequency via a second application. -/
theorem add_word_spec_witness :
    (((∃ d', (Dicts.mk 0 [⟨.file "d", ⟨[], []⟩⟩]).add_word "w" "42" "m" =
        some (d', .ok ())) ↔
      ("42" = "" ∨ (parseUsize "42").isSome = true)) ∧
    ("42" ≠ "" → parseUsize "42" = none →
      (Dicts.mk 0 [⟨.file "d", ⟨[], []⟩⟩]).add_word "w" "42" "m" =
        some (Dicts.mk 0 [⟨.file "d", ⟨[], []⟩⟩], .error .invalidFrequency)) ∧
    (∃ d', (Dicts.mk 0 [⟨.file "d", ⟨[], []⟩⟩]).add_word "w" "" "" =
      some (d', .ok ()))) ∧
    (Dicts.mk 0 [⟨.file "d", ⟨[], []⟩⟩]).add_word "w" "not a frequency" "" =
      some (Dicts.mk 0 [⟨.file "d", ⟨[], []⟩⟩], .error .invalidFrequency) :=
  ⟨add_word_spec _ "w" "42" "m" (by decide) (by decide),
    (add_word_spec (Dicts.mk 0 [⟨.file "d", ⟨[], []⟩⟩]) "w" "not a frequency" ""
      (by decide) (by decide)).2.1 (by decide) (by decide)⟩

/-- C7: the word non-emptiness requirement is the UI guard
`can_add_word` (true iff the pending word is non-empty); the
registry-level `Dicts::add_word` never aborts on account of the word:
under I2 it returns a value (`isSome`) for every word, the empty string
included. -/
theorem add_word_no_fatal_word_check (a : App) (d : Dicts) (w f t : String)
    (hidx : d.idx < d.dicts.length) :
    (a.can_add_word = true ↔ a.word ≠ "") ∧
    (d.add_word w f t).isSome = true := by
  constructor
  · simpa [App.can_add_word, Bool.not_eq_true] using (String.isEmpty_iff a.word).not
  · by_cases hf : f = ""
    · rw [add_word_eval_ok d w f t hidx (Or.inl hf)]
      rfl
    · cases hp : parseUsize f with
      | none =>
        rw [add_word_eval_noparse d w f t hf hp]
        rfl
      | some n =>
        rw [add_word_eval_ok d w f t hidx (Or.inr (by simp [hp]))]
        rfl

/-- Witness for `add_word_no_fatal_word_check` at the empty word. -/
theorem add_word_no_fatal_word_check_witness :
    ((App.mk .en (Dicts.mk 0 [⟨.file "d", ⟨[], []⟩⟩]) "" "" "" "" "" "" false false
      ⟨0, []⟩).can_add_word = true ↔
      (App.mk .en (Dicts.mk 0 [⟨.file "d", ⟨[], []⟩⟩]) "" "" "" "" "" "" false false
        ⟨0, []⟩).word ≠ "") ∧
    ((Dicts.mk 0 [⟨.file "d", ⟨[], []⟩⟩]).add_word "" "7" "x").isSome = true :=
  add_word_no_fatal_word_check _ _ "" "7" "x" (by decide)

/-- C6: `createFrom(name, dictionarySource)` on success appends exactly
one new entry at the end, leaving the selection index and all existing
entries unchanged (the result is the old registry with one entry
concatenated); on malformed vocabulary data it returns a `LoadError`
and the registry is exactly as before the call. -/
theorem new_dict_spec (d : Dicts) (name : String) (src : List String) :
    (∀ j, withDict src = .ok j →
      d.new_dict name src =
        ({ d with dicts := d.dicts ++ [⟨DictName.file name, j⟩] }, .ok ())) ∧
    (∀ e, withDict src = .error e → d.new_dict name src = (d, .error e)) := by
  constructor
  · intro j hj
    simp [Dicts.new_dict, hj]
  · intro e he
    simp [Dicts.new_dict, he]

/-- Witness for `new_dict_spec`: one well-formed source (appends the
parsed engine) and one with a non-numeric frequency (state unchanged). -/
theorem new_dict_spec_witness :
    (Dicts.mk 0 [⟨.file "d", ⟨[], []⟩⟩]).new_dict "n" ["甲", "乙 20", "丙 40 m"] =
      ({ Dicts.mk 0 [⟨.file "d", ⟨[], []⟩⟩] with
          dicts := (Dicts.mk 0 [⟨.file "d", ⟨[], []⟩⟩]).dicts ++
            [⟨DictName.file "n",
              ⟨[⟨"甲", none, none⟩, ⟨"乙", some 20, none⟩,
                ⟨"丙", some 40, some "m"⟩], []⟩⟩] },
        .ok ()) ∧
    (Dicts.mk 0 [⟨.file "d", ⟨[], []⟩⟩]).new_dict "n" ["bad freq here"] =
      (Dicts.mk 0 [⟨.file "d", ⟨[], []⟩⟩], .error .malformed) :=
  ⟨(new_dict_spec _ "n" _).1 _ (by decide),
    (new_dict_spec _ "n" _).2 .malformed (by decide)⟩

/-- C9: `dismissClosed()` keeps exactly the records whose `open` flag is
true, in their original order (the kept records form a sublist, and a
record remains iff it was there and open); recording three errors,
closing them all, and cleaning up leaves zero records. -/
theorem cleanup_spec (ew : ErrorWindows) :
    ew.cleanup.windows.Sublist ew.windows ∧
    (∀ w, w ∈ ew.cleanup.windows ↔ (w ∈ ew.windows ∧ w.isOpen = true)) ∧
    (((ErrorWindows.empty.add "example" "one").add "example" "two").add
        "example" "three").closeAll.cleanup.windows = [] := by
  refine ⟨List.filter_sublist _, fun w => ?_, by decide⟩
  simp [ErrorWindows.cleanup, List.mem_filter]

/-- C8: all four operations join their items with the configured
separator verbatim when it is non-empty and with `"\n"` when it is
empty. -/
theorem separator_join_spec (eng : Engine) (a : App) (input : String) :
    App.segment_one eng a input =
      String.intercalate (if a.separator = "" then "\n" else a.separator)
        (eng.cut a.dicts.selected input a.use_hmm) ∧
    App.segment_granular_one eng a input =
      String.intercalate (if a.separator = "" then "\n" else a.separator)
        (eng.cutForSearch a.dicts.selected input a.use_hmm) ∧
    App.search_one eng a input =
      String.intercalate (if a.separator = "" then "\n" else a.separator)
        (eng.cutAll a.dicts.selected input) ∧
    App.tag_one eng a input =
      String.intercalate (if a.separator = "" then "\n" else a.separator)
        ((eng.tagItems a.dicts.selected input a.use_hmm).map
          fun p => p.1 ++ " " ++ p.2) := by
  have hsep : a.get_separator = if a.separator = "" then "\n" else a.separator := by
    by_cases h : a.separator = "" <;>
      simp [App.get_separator, h, String.isEmpty_iff]
  exact ⟨by rw [App.segment_one, hsep], by rw [App.segment_granular_one, hsep],
    by rw [App.search_one, hsep], by rw [App.tag_one, hsep]⟩

/-- C10: each interactive operation only modifies the output buffer:
the registry, the input buffer, the separator, the HMM flag, the
pending word/frequency/tag fields (and the remaining fields) are
unchanged. -/
theorem interactive_frame (eng : Engine) (a : App) :
    ((App.segment eng a).dicts = a.dicts ∧ (App.segment eng a).input = a.input ∧
      (App.segment eng a).separator = a.separator ∧
      (App.segment eng a).use_hmm = a.use_hmm ∧
      (App.segment eng a).word = a.word ∧ (App.segment eng a).freq = a.freq ∧
      (App.segment eng a).tag = a.tag ∧
      (App.segment eng a).batch_mode = a.batch_mode ∧
      (App.segment eng a).error_windows = a.error_windows ∧
      (App.segment eng a).locale = a.locale) ∧
    ((App.segment_granular eng a).dicts = a.dicts ∧
      (App.segment_granular eng a).input = a.input ∧
      (App.segment_granular eng a).separator = a.separator ∧
      (App.segment_granular eng a).use_hmm = a.use_hmm ∧
      (App.segment_granular eng a).word = a.word ∧
      (App.segment_granular eng a).freq = a.freq ∧
      (App.segment_granular eng a).tag = a.tag ∧
      (App.segment_granular eng a).batch_mode = a.batch_mode ∧
      (App.segment_granular eng a).error_windows = a.error_windows ∧
      (App.segment_granular eng a).locale = a.locale) ∧
    ((App.search eng a).dicts = a.dicts ∧ (App.search eng a).input = a.input ∧
      (App.search eng a).separator = a.separator ∧
      (App.search eng a).use_hmm = a.use_hmm ∧
      (App.search eng a).word = a.word ∧ (App.search eng a).freq = a.freq ∧
      (App.search eng a).tag = a.tag ∧
      (App.search eng a).batch_mode = a.batch_mode ∧
      (App.search eng a).error_windows = a.error_windows ∧
      (App.search eng a).locale = a.locale) ∧
    ((App.tag_run eng a).dicts = a.dicts ∧ (App.tag_run eng a).input = a.input ∧
      (App.tag_run eng a).separator = a.separator ∧
      (App.tag_run eng a).use_hmm = a.use_hmm ∧
      (App.tag_run eng a).word = a.word ∧ (App.tag_run eng a).freq = a.freq ∧
      (App.tag_run eng a).tag = a.tag ∧
      (App.tag_run eng a).batch_mode = a.batch_mode ∧
      (App.tag_run eng a).error_windows = a.error_windows ∧
      (App.tag_run eng a).locale = a.locale) :=
  ⟨⟨rfl, rfl, rfl, rfl, rfl, rfl, rfl, rfl, rfl, rfl⟩,
    ⟨rfl, rfl, rfl, rfl, rfl, rfl, rfl, rfl, rfl, rfl⟩,
    ⟨rfl, rfl, rfl, rfl, rfl, rfl, rfl, rfl, rfl, rfl⟩,
    ⟨rfl, rfl, rfl, rfl, rfl, rfl, rfl, rfl, rfl, rfl⟩⟩

/-- Reading from a file system after a create: the new file shadows. -/
theorem FS.read_create (fs : FS) (p c q : String) :
    (fs.create p c).read q = if p = q then some c else fs.read q := by
  simp only [FS.read, FS.create]
  by_cases h : p = q
  · rw [List.find?_cons_of_pos _ (by simpa using h)]
    simp [h]
  · rw [List.find?_cons_of_neg _ (by simpa using h)]
    simp [h]

/-- Existence in a file system after a create. -/
theorem FS.existsFile_create (fs : FS) (p c q : String) :
    (fs.create p c).existsFile q = if p = q then true else fs.existsFile q := by
  simp only [FS.existsFile, FS.create]
  by_cases h : p = q
  · rw [List.find?_cons_of_pos _ (by simpa using h)]
    simp [h]
  · rw [List.find?_cons_of_neg _ (by simpa using h)]
    simp [h]

/-- A successful batch run writes, in input order, one output file per
input, and leaves the rest of the file system alone. -/
theorem with_out_files_ok (func : String → String) (dir : String)
    (inputs : List InFile) :
    ∀ fs : FS,
      (∀ inf ∈ inputs, (fs.read inf.path).isSome = true) →
      (∀ inf ∈ inputs, fs.existsFile (outPath dir inf) = false) →
      (inputs.map (outPath dir)).Nodup →
      (∀ inf ∈ inputs, ∀ inf' ∈ inputs, outPath dir inf ≠ inf'.path) →
      with_out_files func dir inputs fs =
        (⟨(inputs.map (batchOutput func dir fs)).reverse ++ fs.files⟩, .ok ()) := by
  induction inputs with
  | nil =>
    intro fs _ _ _ _
    simp [with_out_files]
  | cons inf rest ih =>
    intro fs h1 h2 h3 h4
    have hmem : inf ∈ inf :: rest := List.mem_cons_self inf rest
    obtain ⟨c, hc⟩ := Option.isSome_iff_exists.mp (h1 inf hmem)
    have hex : fs.existsFile (outPath dir inf) = false := h2 inf hmem
    have hnodup := h3
    rw [List.map_cons, List.nodup_cons] at hnodup
    have hne : ∀ inf' ∈ rest, outPath dir inf ≠ inf'.path := fun inf' hm =>
      h4 inf hmem inf' (List.mem_cons_of_mem inf hm)
    have hread' : ∀ inf' ∈ rest,
        (fs.create (outPath dir inf) (func (rustTrim c) ++ "\n")).read inf'.path =
          fs.read inf'.path := by
      intro inf' hm
      rw [FS.read_create, if_neg (hne inf' hm)]
    have step : with_out_files func dir (inf :: rest) fs =
        with_out_files func dir rest
          (fs.create (outPath dir inf) (func (rustTrim c) ++ "\n")) := by
      simp [with_out_files, hc, hex]
    rw [step, ih _ ?h1 ?h2 ?h3 ?h4]
    case h1 =>
      intro inf' hm
      rw [hread' inf' hm]
      exact h1 inf' (List.mem_cons_of_mem inf hm)
    case h2 =>
      intro inf' hm
      rw [FS.existsFile_create, if_neg ?_]
      · exact h2 inf' (List.mem_cons_of_mem inf hm)
      · intro he
        exact hnodup.1 (he ▸ List.mem_map_of_mem (outPath dir) hm)
    case h3 => exact hnodup.2
    case h4 =>
      intro inf' hm inf'' hm'
      exact h4 inf' (List.mem_cons_of_mem inf hm) inf'' (List.mem_cons_of_mem inf hm')
    have hmapeq : rest.map (batchOutput func dir
        (fs.create (outPath dir inf) (func (rustTrim c) ++ "\n"))) =
        rest.map (batchOutput func dir fs) :=
      List.map_congr_left fun inf' hm => by simp [batchOutput, hread' inf' hm]
    have hbo : batchOutput func dir fs inf = (outPath dir inf, func (rustTrim c) ++ "\n") := by
      simp [batchOutput, hc]
    rw [hmapeq]
    simp [FS.create, hbo, List.append_assoc]

/-- C2: under the hypotheses that every input is readable, no output
name collides with an existing file or another output, and no output
path doubles as an input path, the batch run succeeds and the final
file system is the original plus, in input order, one new file per
input at `outputDir/<base filename>` containing the operation applied
to the trimmed text plus exactly one newline; and whenever the output
file for the input being processed already exists, creation fails with
an already-exists error instead of overwriting. -/
theorem batch_run_spec (func : String → String) (dir : String) :
    (∀ (inputs : List InFile) (fs : FS),
      (∀ inf ∈ inputs, (fs.read inf.path).isSome = true) →
      (∀ inf ∈ inputs, fs.existsFile (outPath dir inf) = false) →
      (inputs.map (outPath dir)).Nodup →
      (∀ inf ∈ inputs, ∀ inf' ∈ inputs, outPath dir inf ≠ inf'.path) →
      with_out_files func dir inputs fs =
        (⟨(inputs.map (batchOutput func dir fs)).reverse ++ fs.files⟩, .ok ())) ∧
    (∀ (inf : InFile) (rest : List InFile) (fs : FS),
      (fs.read inf.path).isSome = true →
      fs.existsFile (outPath dir inf) = true →
      with_out_files func dir (inf :: rest) fs = (fs, .error .alreadyExists)) := by
  refine ⟨fun inputs fs h1 h2 h3 h4 => with_out_files_ok func dir inputs fs h1 h2 h3 h4, ?_⟩
  intro inf rest fs hr hex
  obtain ⟨c, hc⟩ := Option.isSome_iff_exists.mp hr
  simp [with_out_files, hc, hex]

/-- Witness for `batch_run_spec`: two readable inputs into an empty
output directory succeed; a colliding output name fails. -/
theorem batch_run_spec_witness :
    with_out_files (fun s => s) "out" [⟨"in/a", "a"⟩, ⟨"in/b", "b"⟩]
        ⟨[("in/a", " x "), ("in/b", "y")]⟩ =
      (⟨([(⟨"in/a", "a"⟩ : InFile), ⟨"in/b", "b"⟩].map
          (batchOutput (fun s => s) "out" ⟨[("in/a", " x "), ("in/b", "y")]⟩)).reverse ++
        [("in/a", " x "), ("in/b", "y")]⟩, .ok ()) ∧
    with_out_files (fun s => s) "out" [⟨"in/a", "a"⟩]
        ⟨[("in/a", "y"), ("out/a", "z")]⟩ =
      (⟨[("in/a", "y"), ("out/a", "z")]⟩, .error .alreadyExists) :=
  ⟨(batch_run_spec _ "out").1 _ _ (by decide) (by decide) (by decide) (by decide),
    (batch_run_spec _ "out").2 ⟨"in/a", "a"⟩ [] _ (by decide) (by decide)⟩

/-- Splitting a batch run at a list append: the second part runs from
the first part's final state only if the first part succeeded. -/
theorem with_out_files_append (func : String → String) (dir : String)
    (xs ys : List InFile) :
    ∀ fs : FS,
      with_out_files func dir (xs ++ ys) fs =
        match with_out_files func dir xs fs with
        | (fs', .ok _) => with_out_files func dir ys fs'
        | (fs', .error e) => (fs', .error e) := by
  induction xs with
  | nil =>
    intro fs
    simp [with_out_files]
  | cons inf rest ih =>
    intro fs
    simp only [List.cons_append, with_out_files]
    cases hr : fs.read inf.path with
    | none => rfl
    | some c =>
      by_cases hex : fs.existsFile (outPath dir inf) = true
      · simp [hex]
      · simp only [Bool.not_eq_true] at hex
        simp [hex, ih]

/-- C3: if the inputs before `bad` all process successfully, reaching
state `fs₁`, and the step for `bad` fails (unreadable input or
already-existing output), then the whole run returns that error with
final state exactly `fs₁`: the outputs written before the failure
remain, and no input after `bad` is read or written (the result does
not depend on `rest`). -/
theorem batch_fail_fast (func : String → String) (dir : String)
    (pre : List InFile) (bad : InFile) (rest : List InFile) (fs fs₁ : FS)
    (hpre : with_out_files func dir pre fs = (fs₁, .ok ()))
    (hbad : failsAt dir fs₁ bad = true) :
    with_out_files func dir (pre ++ bad :: rest) fs =
      (fs₁, .error (if (fs₁.read bad.path).isSome then .alreadyExists else .readFailed)) := by
  rw [with_out_files_append func dir pre (bad :: rest) fs, hpre]
  cases hr : fs₁.read bad.path with
  | none => simp [with_out_files, hr]
  | some c =>
    have hex : fs₁.existsFile (outPath dir bad) = true := by
      simpa [failsAt, hr] using hbad
    simp [with_out_files, hr, hex]

/-- Witness for `batch_fail_fast`: one input succeeds, the second
collides with an existing output file, a third is never processed. -/
theorem batch_fail_fast_witness :
    with_out_files (fun s => s) "out"
        ([⟨"in/a", "a"⟩] ++ (⟨"in/b", "b"⟩ : InFile) :: [⟨"in/c", "c"⟩])
        ⟨[("in/a", "x"), ("in/b", "y"), ("out/b", "z")]⟩ =
      (⟨[("out/a", "x\n"), ("in/a", "x"), ("in/b", "y"), ("out/b", "z")]⟩,
        .error (if ((⟨[("out/a", "x\n"), ("in/a", "x"), ("in/b", "y"),
          ("out/b", "z")]⟩ : FS).read "in/b").isSome then .alreadyExists
          else .readFailed)) :=
  batch_fail_fast (fun s => s) "out" [⟨"in/a", "a"⟩] ⟨"in/b", "b"⟩ [⟨"in/c", "c"⟩]
    ⟨[("in/a", "x"), ("in/b", "y"), ("out/b", "z")]⟩
    ⟨[("out/a", "x\n"), ("in/a", "x"), ("in/b", "y"), ("out/b", "z")]⟩
    (by decide) (by decide)

end Chissor
